import Mathlib

/-!
Verification of the foodiary meal-logging persistence layer of the application.

The definitions below are a shallow embedding of the TypeScript sources:

* `src/types/food.ts` — the `FoodEntry` record and its variants;
* `src/lib/fileStorage.ts` — serialization to/from the mirror-file JSON form
  (`entryToSerializable`, `serializableToEntry`, `loadFromFile`);
* `src/lib/db.ts` — the hybrid facade (`shouldUseSupabase`, `addEntry`,
  `getAllEntriesInternal`, `syncToFile`, `clearAllEntries`, `compressImage`);
* `src/lib/supabaseStorage.ts` and the Supabase branch of `src/lib/db.ts` —
  the remote adapter (`addEntryToSupabase`, friends).

JavaScript blobs are modelled as byte lists (`List Nat`, each value < 256),
strings as Lean `String`, numbers that hold integer timestamps as `Int`, and
the floating-point arithmetic of the image resizer as exact rationals.
External calls (IndexedDB, Supabase, the file system, `fetch`) are modelled
by explicit state records and result oracles threaded through the functions.
-/

namespace Foodiary

/-- A JavaScript value that can sit in a `photo` slot: a real binary blob
(byte list) or a string (the base64 data-URL form used in the mirror file). -/
inductive PhotoVal where
  | blob (bytes : List Nat)
  | str (s : String)
deriving DecidableEq, Repr

/-- The `FoodEntry` record of `src/types/food.ts` (current schema).
`mealType` is a string drawn from the five-value union type. -/
structure FoodEntry where
  id : String
  date : String
  time : Option String
  mealType : String
  menu : Option String
  photo : Option PhotoVal
  createdAt : Int
deriving DecidableEq, Repr

/-- The five legal values of the `MealType` union type
(breakfast, lunch, dinner, late-night snack, snack). -/
def mealTypes : List String := ["朝食", "昼食", "夕食", "夜食", "間食"]

/-- The serialized (mirror-file JSON) form of an entry, as produced by
`entryToSerializable` and consumed by `serializableToEntry`.  Optional
fields model JSON keys that may be absent; `menuName` is the legacy
single menu field of the pre-`mealType` schema. -/
structure SerializableEntry where
  id : String
  date : String
  time : Option String
  mealType : Option String
  menu : Option String
  menuName : Option String
  photo : Option PhotoVal
  photoIsBase64 : Bool
  createdAt : Int
deriving DecidableEq, Repr

/-- JavaScript truthiness of an optional string: `undefined`/`null` and the
empty string are falsy. -/
def strTruthy : Option String → Bool
  | none => false
  | some s => !(s == "")

/-- The JavaScript expression `a || b` on two optional strings: yields `a`
when `a` is truthy, otherwise `b` unchanged. -/
def jsOrStr (a b : Option String) : Option String :=
  if strTruthy a then a else b

/-- The JavaScript expression `x || undefined` on an optional string:
collapses the empty string to `none`. -/
def orUndef (a : Option String) : Option String :=
  if strTruthy a then a else none

/-! ### Base64 and data URLs

`entryToSerializable` relies on `FileReader.readAsDataURL`, and
`serializableToEntry` on `fetch` of a data URL; these platform codecs are
modelled by the standard base64 alphabet with `=` padding below. -/

/-- The base64 alphabet, index 0 to 63. -/
def b64chars : List Char :=
  ['A','B','C','D','E','F','G','H','I','J','K','L','M','N','O','P',
   'Q','R','S','T','U','V','W','X','Y','Z',
   'a','b','c','d','e','f','g','h','i','j','k','l','m','n','o','p',
   'q','r','s','t','u','v','w','x','y','z',
   '0','1','2','3','4','5','6','7','8','9','+','/']

/-- The alphabet character of a sextet. -/
def cChar (n : Nat) : Char := b64chars.getD n 'A'

/-- Index of a character in a character list, starting the count at `i`. -/
def charIdx : List Char → Char → Nat → Option Nat
  | [], _, _ => none
  | a :: as, c, i => if a = c then some i else charIdx as c (i + 1)

/-- The sextet of an alphabet character, `none` for a non-alphabet char. -/
def dChar (c : Char) : Option Nat := charIdx b64chars c 0

/-- Base64-encode a byte list (standard alphabet, `=` padding). -/
def b64encode : List Nat → List Char
  | [] => []
  | [b1] => [cChar (b1 / 4), cChar (b1 % 4 * 16), '=', '=']
  | [b1, b2] => [cChar (b1 / 4), cChar (b1 % 4 * 16 + b2 / 16),
                 cChar (b2 % 16 * 4), '=']
  | b1 :: b2 :: b3 :: rest =>
      cChar (b1 / 4) :: cChar (b1 % 4 * 16 + b2 / 16) ::
      cChar (b2 % 16 * 4 + b3 / 64) :: cChar (b3 % 64) :: b64encode rest

/-- Base64-decode a character list; `none` on any non-alphabet character in
a data position. -/
def b64decode : List Char → Option (List Nat)
  | [] => some []
  | c1 :: c2 :: c3 :: c4 :: rest => do
      let s1 ← dChar c1
      let s2 ← dChar c2
      if c3 = '=' then
        some [s1 * 4 + s2 / 16]
      else do
        let s3 ← dChar c3
        if c4 = '=' then
          some [s1 * 4 + s2 / 16, s2 % 16 * 16 + s3 / 4]
        else do
          let s4 ← dChar c4
          let tail ← b64decode rest
          some ((s1 * 4 + s2 / 16) :: (s2 % 16 * 16 + s3 / 4) ::
                (s3 % 4 * 64 + s4) :: tail)
  | _ => none

/-- The data-URL header emitted by `FileReader.readAsDataURL` for the JPEG
blobs this application stores. -/
def dataUrlHead : String := "data:image/jpeg;base64,"

/-- The data-URL string of a binary blob, as produced by
`FileReader.readAsDataURL` in `entryToSerializable`. -/
def blobToDataUrl (bytes : List Nat) : String :=
  dataUrlHead ++ String.mk (b64encode bytes)

/-- Decoding a data URL back to bytes, as performed by `fetch` on the data
URL inside `serializableToEntry`; `none` models a rejected fetch. -/
def dataUrlDecode (s : String) : Option (List Nat) :=
  if dataUrlHead.data.isPrefixOf s.data then
    b64decode (s.data.drop dataUrlHead.data.length)
  else none

/-! ### Serialization (`src/lib/fileStorage.ts`) -/

/-- Embedding of `entryToSerializable` from `fileStorage.ts`: spread the entry; when the
photo is a genuine blob, replace it with its base64 data URL and set the
`_photoIsBase64` flag. -/
def entryToSerializable (e : FoodEntry) : SerializableEntry :=
  match e.photo with
  | some (PhotoVal.blob bytes) =>
      { id := e.id, date := e.date, time := e.time, mealType := some e.mealType,
        menu := e.menu, menuName := none,
        photo := some (PhotoVal.str (blobToDataUrl bytes)),
        photoIsBase64 := true, createdAt := e.createdAt }
  | p =>
      { id := e.id, date := e.date, time := e.time, mealType := some e.mealType,
        menu := e.menu, menuName := none,
        photo := p, photoIsBase64 := false, createdAt := e.createdAt }

/-- Embedding of `serializableToEntry` from `fileStorage.ts`: `mealType` defaults to
"昼食" (lunch) via the JavaScript-falsy fallback on `rest.mealType`; `menu` is
`rest.menu || rest.menuName` (legacy `menuName` migration); a flagged
base64 photo string is fetched back into a blob, a malformed data URL
making the whole conversion reject. -/
def serializableToEntry (d : SerializableEntry) : Except String FoodEntry := do
  let mealType := match d.mealType with
    | some s => if s = "" then "昼食" else s
    | none => "昼食"
  let menu := jsOrStr d.menu d.menuName
  let photo ←
    match d.photoIsBase64, d.photo with
    | true, some (PhotoVal.str s) =>
        match dataUrlDecode s with
        | some bytes => Except.ok (some (PhotoVal.blob bytes))
        | none => Except.error "failed to fetch data URL"
    | _, p => Except.ok p
  Except.ok { id := d.id, date := d.date, time := d.time, mealType := mealType,
              menu := menu, photo := photo, createdAt := d.createdAt }

/-- The possible outcomes of reading and JSON-parsing the mirror file inside
`loadFromFile`: the file is absent (`getFileHandle` throws `NotFoundError`),
its text is not valid JSON (`JSON.parse` throws), or it parses, in which
case the code checks for a top-level `entries` array. -/
inductive MirrorRead where
  | missing
  | malformed
  | parsed (hasEntriesArray : Bool) (entries : List SerializableEntry)
deriving DecidableEq, Repr

/-- The `Promise.all` of `serializableToEntry` conversions inside
`loadFromFile` and `importFromFile`: the converted list, or the first
rejection. -/
def mapSerializable : List SerializableEntry → Except String (List FoodEntry)
  | [] => Except.ok []
  | d :: ds => do
      let e ← serializableToEntry d
      let es ← mapSerializable ds
      Except.ok (e :: es)

/-- Embedding of `loadFromFile` from `fileStorage.ts`.  The outer `Except` layer records a
raised (uncaught) exception; the catch-all in the code means every path returns
normally: `null` (here `Except.ok none`) without a directory handle, for
malformed JSON, for a missing `entries` array, or when an entry conversion
rejects; `[]` when the file does not exist; otherwise the converted list. -/
def loadFromFile (handle : Option Unit) (file : MirrorRead) :
    Except String (Option (List FoodEntry)) :=
  match handle with
  | none => Except.ok none
  | some _ =>
    match file with
    | MirrorRead.missing => Except.ok (some [])
    | MirrorRead.malformed => Except.ok none
    | MirrorRead.parsed hasArr entries =>
        if hasArr then
          match mapSerializable entries with
          | Except.ok es => Except.ok (some es)
          | Except.error _ => Except.ok none
        else Except.ok none

/-! ### Local listing order (`getAllEntriesInternal` of `src/lib/db.ts`)

The comparator sorts by the template string `date + "T" + (time || "00:00")`
via `localeCompare`, modelled as codepoint-lexicographic comparison. -/

/-- Boolean lexicographic `≤` on character lists (the order `localeCompare`
induces on these ASCII date/time strings). -/
def lexLeChars : List Char → List Char → Bool
  | [], _ => true
  | _ :: _, [] => false
  | a :: as, b :: bs => if a < b then true else if b < a then false else lexLeChars as bs

/-- Boolean lexicographic `<` on character lists. -/
def lexLtChars : List Char → List Char → Bool
  | [], [] => false
  | [], _ :: _ => true
  | _ :: _, [] => false
  | a :: as, b :: bs => if a < b then true else if b < a then false else lexLtChars as bs

/-- The time component of the sort key: the time when truthy, else "00:00". -/
def timeKey (e : FoodEntry) : String :=
  match e.time with
  | some t => if t = "" then "00:00" else t
  | none => "00:00"

/-- The comparator key string of `getAllEntriesInternal`. -/
def sortKey (e : FoodEntry) : List Char :=
  e.date.data ++ 'T' :: (timeKey e).data

/-- Embedding of `getAllEntriesInternal` from `db.ts`: all entries of the local store,
sorted newest first by the date-time key. -/
def getAllEntriesInternal (entries : List FoodEntry) : List FoodEntry :=
  entries.mergeSort fun a b => lexLeChars (sortKey b) (sortKey a)

/-! ### Local store and directory mirror (`db.ts`, `fileStorage.ts`) -/

/-- The combined state seen by the local (IndexedDB) branch of `db.ts`: the
rows of the object store, whether a directory handle with permission exists, and
the current content of the mirror file (the serialized entry list written by
`saveToFile`, `none` when never written). -/
structure DbState where
  entries : List FoodEntry
  dirHandle : Bool
  mirrorFile : Option (List SerializableEntry)
deriving DecidableEq, Repr

/-- Embedding of `saveToFile` from `fileStorage.ts`: with a permitted directory handle,
overwrite the mirror file with the serialized entries; otherwise a no-op. -/
def saveToFile (st : DbState) (entries : List FoodEntry) : DbState :=
  if st.dirHandle then
    { st with mirrorFile := some (entries.map entryToSerializable) }
  else st

/-- Embedding of `syncToFile` from `db.ts`: with a directory handle, write all entries
(as listed by `getAllEntriesInternal`) to the mirror file. -/
def syncToFile (st : DbState) : DbState :=
  if st.dirHandle then saveToFile st (getAllEntriesInternal st.entries) else st

/-- IndexedDB `get` on the `entries` store: lookup by the `id` key path. -/
def idbGet (entries : List FoodEntry) (id : String) : Option FoodEntry :=
  entries.find? fun e => e.id == id

/-- IndexedDB `put` (upsert) on the `entries` store: replace the row with
the same `id`, or append a new row. -/
def idbPut (entries : List FoodEntry) (e : FoodEntry) : List FoodEntry :=
  if entries.any (fun x => x.id == e.id) then
    entries.map fun x => if x.id == e.id then e else x
  else entries ++ [e]

/-- Errors of the local branch: IndexedDB `add` raises `ConstraintError`
when the key already exists. -/
inductive DbErr where
  | constraintError
deriving DecidableEq, Repr

/-- The local (unauthenticated) branch of `addEntry` in `db.ts`:
`db.add` (failing on a duplicate id without touching the store), then
`syncToFile`. -/
def addEntryLocal (st : DbState) (e : FoodEntry) : Except DbErr DbState :=
  if st.entries.any (fun x => x.id == e.id) then
    Except.error DbErr.constraintError
  else
    Except.ok (syncToFile { st with entries := st.entries ++ [e] })

/-- The local branch of `getEntry` in `db.ts`: `db.get`. -/
def getEntryLocal (st : DbState) (id : String) : Option FoodEntry :=
  idbGet st.entries id

/-- The local branch of `updateEntry` in `db.ts`: `db.put` (upsert), then
`syncToFile`. -/
def updateEntryLocal (st : DbState) (e : FoodEntry) : DbState :=
  syncToFile { st with entries := idbPut st.entries e }

/-- The local branch of `deleteEntry` in `db.ts`: `db.delete`, then
`syncToFile`. -/
def deleteEntryLocal (st : DbState) (id : String) : DbState :=
  syncToFile { st with entries := st.entries.filter fun x => !(x.id == id) }

/-- Embedding of `importEntries` from `db.ts`: transactional batch of `put`s, then
`syncToFile`. -/
def importEntries (st : DbState) (es : List FoodEntry) : DbState :=
  syncToFile { st with entries := es.foldl idbPut st.entries }

/-- Embedding of `clearAllEntries` from `db.ts`: `db.clear` — and nothing else; in
particular no `syncToFile` call. -/
def clearAllEntries (st : DbState) : DbState :=
  { st with entries := [] }

/-! ### Remote store adapter (`db.ts` Supabase branch, `supabaseStorage.ts`) -/

/-- The `SupabaseFoodEntry` row shape of `src/types/food.ts`. -/
structure SupabaseFoodEntry where
  id : String
  user_id : String
  date : String
  time : Option String
  meal_type : String
  menu : Option String
  photo_url : Option String
  created_at : Int
deriving DecidableEq, Repr

/-- Errors raised by the remote adapter: the configuration error thrown when
`createClient()` returns `null`, or a backend error propagated from a
Supabase call. -/
inductive RemoteErr where
  | notConfigured
  | backend (msg : String)
deriving DecidableEq, Repr

/-- Calls the remote adapter issues against Supabase, recorded as a trace. -/
inductive REffect where
  | upload (path : String)
  | removeBlob (path : String)
  | insertRow (id : String)
  | updateRow (id : String)
  | deleteRow (id : String)
deriving DecidableEq, Repr

/-- Oracles for the external Supabase services: whether `createClient`
yields a client, and the outcomes of the storage and table calls. -/
structure RemoteEnv where
  configured : Bool
  uploadOk : Bool
  removeOk : Bool
  signOk : Bool
  fetchOk : Bool
  fetchBytes : List Nat
  insertResult : Option String
  updateResult : Option String
  deleteResult : Option String
  selectAllResult : Except String (List SupabaseFoodEntry)
  selectOneResult : Option SupabaseFoodEntry
deriving Repr

/-- The storage path `{userId}/{entryId}.jpg` used by `uploadPhoto`. -/
def photoPath (userId entryId : String) : String :=
  userId ++ "/" ++ entryId ++ ".jpg"

/-- Embedding of `uploadPhoto` from `supabaseStorage.ts`: `null` without a client; emits
the upload call and returns the path on success, `null` on failure. -/
def uploadPhoto (env : RemoteEnv) (userId entryId : String) :
    Option String × List REffect :=
  if env.configured then
    if env.uploadOk then
      (some (photoPath userId entryId), [REffect.upload (photoPath userId entryId)])
    else (none, [REffect.upload (photoPath userId entryId)])
  else (none, [])

/-- Embedding of `deletePhoto` from `supabaseStorage.ts`: `false` without a client;
otherwise emits the remove call and reports the outcome given by the oracle. -/
def deletePhoto (env : RemoteEnv) (path : String) : Bool × List REffect :=
  if env.configured then (env.removeOk, [REffect.removeBlob path]) else (false, [])

/-- Embedding of `getPhotoUrl` from `supabaseStorage.ts`: a signed URL, or `null` without a
client or on failure.  Only presence matters downstream, so the URL itself
is not materialized. -/
def getPhotoUrl (env : RemoteEnv) : Bool :=
  env.configured && env.signOk

/-- Embedding of `fromSupabaseEntry` from `db.ts`: nulls collapse to absent fields; a photo
reference is resolved via a signed URL and fetched, a fetch failure leaving
the photo absent without failing the conversion. -/
def fromSupabaseEntry (env : RemoteEnv) (row : SupabaseFoodEntry) : FoodEntry :=
  { id := row.id, date := row.date, time := orUndef row.time,
    mealType := row.meal_type, menu := orUndef row.menu,
    photo :=
      match row.photo_url with
      | some _ =>
          if getPhotoUrl env then
            if env.fetchOk then some (PhotoVal.blob env.fetchBytes) else none
          else none
      | none => none,
    createdAt := row.created_at }

/-- Embedding of `addEntryToSupabase` from `db.ts`: throw the configuration error without a
client; upload the photo (when present) first, insert the metadata row, and
on insert failure delete the just-uploaded blob and re-throw the insert
error. -/
def addEntryToSupabase (env : RemoteEnv) (e : FoodEntry) (userId : String) :
    Except RemoteErr Unit × List REffect :=
  if env.configured then
    let up : Option String × List REffect :=
      match e.photo with
      | some _ => uploadPhoto env userId e.id
      | none => (none, [])
    match env.insertResult with
    | none => (Except.ok (), up.2 ++ [REffect.insertRow e.id])
    | some err =>
        match up.1 with
        | some p =>
            (Except.error (RemoteErr.backend err),
             up.2 ++ [REffect.insertRow e.id] ++ (deletePhoto env p).2)
        | none =>
            (Except.error (RemoteErr.backend err), up.2 ++ [REffect.insertRow e.id])
  else (Except.error RemoteErr.notConfigured, [])

/-- Embedding of `getAllEntriesFromSupabase` from `db.ts`: an empty list without a client;
query errors are logged and also yield an empty list; otherwise the rows
converted by `fromSupabaseEntry`. -/
def getAllEntriesFromSupabase (env : RemoteEnv) (userId : String) :
    Except RemoteErr (List FoodEntry) :=
  if env.configured then
    match env.selectAllResult with
    | Except.error _ => Except.ok []
    | Except.ok rows => Except.ok (rows.map (fromSupabaseEntry env))
  else Except.ok []

/-- Embedding of `getEntryFromSupabase` from `db.ts`: `undefined` without a client or on a
query error; otherwise the converted row. -/
def getEntryFromSupabase (env : RemoteEnv) (id userId : String) :
    Except RemoteErr (Option FoodEntry) :=
  if env.configured then
    match env.selectOneResult with
    | none => Except.ok none
    | some row => Except.ok (some (fromSupabaseEntry env row))
  else Except.ok none

/-- Embedding of `updateEntryInSupabase` from `db.ts`: configuration error without a
client; fetch the existing photo reference, upload a new photo or delete a
removed one, then update the row, propagating an update error. -/
def updateEntryInSupabase (env : RemoteEnv) (e : FoodEntry) (userId : String) :
    Except RemoteErr Unit × List REffect :=
  if env.configured then
    let existing : Option String := orUndef (env.selectOneResult.bind (·.photo_url))
    let step : Option String × List REffect :=
      match e.photo, existing with
      | some _, _ => uploadPhoto env userId e.id
      | none, some p => (none, (deletePhoto env p).2)
      | none, none => (none, [])
    match env.updateResult with
    | none => (Except.ok (), step.2 ++ [REffect.updateRow e.id])
    | some err => (Except.error (RemoteErr.backend err), step.2 ++ [REffect.updateRow e.id])
  else (Except.error RemoteErr.notConfigured, [])

/-- Embedding of `deleteEntryFromSupabase` from `db.ts`: configuration error without a
client; delete the photo blob when a reference exists, then delete the row,
propagating a delete error. -/
def deleteEntryFromSupabase (env : RemoteEnv) (id userId : String) :
    Except RemoteErr Unit × List REffect :=
  if env.configured then
    let blobStep : List REffect :=
      match env.selectOneResult.bind (·.photo_url) with
      | some p => (deletePhoto env p).2
      | none => []
    match env.deleteResult with
    | none => (Except.ok (), blobStep ++ [REffect.deleteRow id])
    | some err => (Except.error (RemoteErr.backend err), blobStep ++ [REffect.deleteRow id])
  else (Except.error RemoteErr.notConfigured, [])

/-! ### Unified access facade (`db.ts`) -/

/-- The `DbOptions` argument of the facade operations. -/
structure DbOptions where
  userId : Option String
  isAuthenticated : Option Bool
deriving DecidableEq, Repr

/-- Embedding of `shouldUseSupabase` from `db.ts`:
`!!(options?.userId && options?.isAuthenticated)`. -/
def shouldUseSupabase (options : Option DbOptions) : Bool :=
  match options with
  | none => false
  | some o => strTruthy o.userId && o.isAuthenticated.getD false

/-- The `options!.userId!` non-null assertion used on the remote branch. -/
def userIdOf (options : Option DbOptions) : String :=
  ((options.bind (·.userId)).getD "")

/-- Facade `addEntry` of `db.ts`: route to the Supabase branch exactly when
`shouldUseSupabase`, otherwise the local branch. -/
def addEntry (env : RemoteEnv) (st : DbState) (e : FoodEntry)
    (options : Option DbOptions) :
    (Except RemoteErr Unit × List REffect) ⊕ Except DbErr DbState :=
  if shouldUseSupabase options then
    Sum.inl (addEntryToSupabase env e (userIdOf options))
  else
    Sum.inr (addEntryLocal st e)

/-- Facade `getAllEntries` of `db.ts`. -/
def getAllEntries (env : RemoteEnv) (st : DbState) (options : Option DbOptions) :
    Except RemoteErr (List FoodEntry) ⊕ List FoodEntry :=
  if shouldUseSupabase options then
    Sum.inl (getAllEntriesFromSupabase env (userIdOf options))
  else
    Sum.inr (getAllEntriesInternal st.entries)

/-- Facade `getEntry` of `db.ts`. -/
def getEntry (env : RemoteEnv) (st : DbState) (id : String)
    (options : Option DbOptions) :
    Except RemoteErr (Option FoodEntry) ⊕ Option FoodEntry :=
  if shouldUseSupabase options then
    Sum.inl (getEntryFromSupabase env id (userIdOf options))
  else
    Sum.inr (getEntryLocal st id)

/-- Facade `updateEntry` of `db.ts`. -/
def updateEntry (env : RemoteEnv) (st : DbState) (e : FoodEntry)
    (options : Option DbOptions) :
    (Except RemoteErr Unit × List REffect) ⊕ DbState :=
  if shouldUseSupabase options then
    Sum.inl (updateEntryInSupabase env e (userIdOf options))
  else
    Sum.inr (updateEntryLocal st e)

/-- Facade `deleteEntry` of `db.ts`. -/
def deleteEntry (env : RemoteEnv) (st : DbState) (id : String)
    (options : Option DbOptions) :
    (Except RemoteErr Unit × List REffect) ⊕ DbState :=
  if shouldUseSupabase options then
    Sum.inl (deleteEntryFromSupabase env id (userIdOf options))
  else
    Sum.inr (deleteEntryLocal st id)

/-! ### Image compressor (`compressImage` of `db.ts`)

Only the dimension arithmetic is modelled (over exact rationals); decoding,
drawing and JPEG re-encoding are platform calls. -/

/-- The output pixel dimensions computed by `compressImage`: a landscape
image has its width clamped to `maxW` (height scaled along), any other
image has its height clamped to `maxH` (width scaled along). -/
def compressDims (w h maxW maxH : ℚ) : ℚ × ℚ :=
  if h < w then
    if maxW < w then (maxW, h * (maxW / w)) else (w, h)
  else
    if maxH < h then (w * (maxH / h), maxH) else (w, h)

/-! ### Concrete sample values used to instantiate the theorems -/

/-- A current-schema entry with a photo blob. -/
def sampleEntry : FoodEntry :=
  { id := "a1", date := "2024-01-28", time := some "12:30", mealType := "昼食",
    menu := some "カレー", photo := some (PhotoVal.blob [255, 0, 1]),
    createdAt := 1000 }

/-- A current-schema entry without time, menu or photo. -/
def samplePlain : FoodEntry :=
  { id := "a2", date := "2024-01-27", time := none, mealType := "夕食",
    menu := none, photo := none, createdAt := 900 }

/-- An entry whose `menu` is present but the empty string. -/
def menuEmptyEntry : FoodEntry :=
  { id := "m0", date := "2024-01-01", time := none, mealType := "昼食",
    menu := some "", photo := none, createdAt := 1 }

/-- What the serialization round trip actually yields on `menuEmptyEntry`:
the empty-string menu collapses to an absent menu. -/
def menuEmptyResult : FoodEntry :=
  { id := "m0", date := "2024-01-01", time := none, mealType := "昼食",
    menu := none, photo := none, createdAt := 1 }

/-- A local store holding one entry, with a granted directory whose mirror
file holds that same entry set. -/
def stSample : DbState :=
  { entries := [samplePlain], dirHandle := true,
    mirrorFile := some [entryToSerializable samplePlain] }

/-- A remote environment in which `createClient()` returns `null`. -/
def envNoClient : RemoteEnv :=
  { configured := false, uploadOk := true, removeOk := true, signOk := true,
    fetchOk := true, fetchBytes := [], insertResult := none, updateResult := none,
    deleteResult := none, selectAllResult := Except.ok [], selectOneResult := none }

/-- A configured remote environment whose metadata insert fails. -/
def envInsertFail : RemoteEnv :=
  { envNoClient with configured := true, insertResult := some "insert failed" }

/-- Well-formedness of a current-schema photo slot: absent, or a genuine
binary blob whose values are bytes. -/
def photoWF : Option PhotoVal → Prop
  | some (PhotoVal.blob bytes) => ∀ b ∈ bytes, b < 256
  | some (PhotoVal.str _) => False
  | none => True

/-! ## Theorems -/

/-- Lemma: `syncToFile` never changes the store rows, only the mirror file. -/
theorem syncToFile_entries (st : DbState) : (syncToFile st).entries = st.entries := by
  unfold syncToFile saveToFile
  split <;> rfl

/-- Lemma: `shouldUseSupabase` holds exactly for options carrying a non-empty user
id together with `isAuthenticated = true`. -/
theorem shouldUseSupabase_iff (options : Option DbOptions) :
    shouldUseSupabase options = true ↔
      ∃ o u, options = some o ∧ o.userId = some u ∧ u ≠ "" ∧
        o.isAuthenticated = some true := by
  cases options with
  | none => simp [shouldUseSupabase]
  | some o =>
    obtain ⟨uid, auth⟩ := o
    cases uid with
    | none => simp [shouldUseSupabase, strTruthy]
    | some u =>
      cases auth with
      | none => simp [shouldUseSupabase, strTruthy]
      | some b =>
        cases b <;> simp [shouldUseSupabase, strTruthy]

/-- Claim C4: every facade operation (addEntry, getAllEntries, getEntry,
updateEntry, deleteEntry) routes to the Remote Store Adapter exactly when
the options carry a non-empty `userId` together with
`isAuthenticated = true`; in every other case (options absent, empty
userId, or flag not `true`) the Local Store branch runs.  The decision is a
pure function of the options of the call itself, independent of any prior state. -/
theorem facade_routing (env : RemoteEnv) (st : DbState) (e : FoodEntry)
    (id : String) (options : Option DbOptions) :
    (shouldUseSupabase options = true ↔
      ∃ o u, options = some o ∧ o.userId = some u ∧ u ≠ "" ∧
        o.isAuthenticated = some true) ∧
    (addEntry env st e options).isLeft = shouldUseSupabase options ∧
    (getAllEntries env st options).isLeft = shouldUseSupabase options ∧
    (getEntry env st id options).isLeft = shouldUseSupabase options ∧
    (updateEntry env st e options).isLeft = shouldUseSupabase options ∧
    (deleteEntry env st id options).isLeft = shouldUseSupabase options := by
  refine ⟨shouldUseSupabase_iff options, ?_, ?_, ?_, ?_, ?_⟩ <;>
    by_cases hc : shouldUseSupabase options <;>
      simp [addEntry, getAllEntries, getEntry, updateEntry, deleteEntry, hc]

/-- Claim C7 (amended): `loadFromFile` with a missing mirror file returns an
empty list; with malformed JSON it logs and returns `null` — a success-path
value, not a raised error; indeed no input makes it raise at all. -/
theorem loadFromFile_spec :
    loadFromFile (some ()) MirrorRead.missing = Except.ok (some []) ∧
    loadFromFile (some ()) MirrorRead.malformed = Except.ok none ∧
    ∀ (handle : Option Unit) (file : MirrorRead),
      (loadFromFile handle file).isOk = true := by
  refine ⟨rfl, rfl, ?_⟩
  intro handle file
  cases handle with
  | none => rfl
  | some u =>
    cases file with
    | missing => rfl
    | malformed => rfl
    | parsed hasArr entries =>
      cases hasArr <;> cases hm : mapSerializable entries <;>
        simp [loadFromFile, hm, Except.isOk, Except.toBool]

/-- Claim C7, counterexample: on malformed JSON `loadFromFile` does not fail
hard; it returns the success value `null`. -/
theorem loadFromFile_malformed_no_failure :
    loadFromFile (some ()) MirrorRead.malformed = Except.ok none ∧
    (loadFromFile (some ()) MirrorRead.malformed).isOk = true :=
  ⟨rfl, rfl⟩

/-- Claim C8: a legacy serialized entry — no `mealType`, no `menu`, a
`menuName` field instead — still parses; `menuName` becomes `menu` and
`mealType` defaults to "昼食" (lunch). -/
theorem serializableToEntry_legacy (d : SerializableEntry)
    (h1 : d.mealType = none) (h2 : d.menu = none) (h3 : d.photoIsBase64 = false) :
    serializableToEntry d = Except.ok
      { id := d.id, date := d.date, time := d.time, mealType := "昼食",
        menu := d.menuName, photo := d.photo, createdAt := d.createdAt } := by
  unfold serializableToEntry
  rw [h1, h3]
  simp [jsOrStr, strTruthy, h2]
  rfl

/-- Claim C8, witness: the example legacy record from the spec parses to lunch and
`menu = "soup"`. -/
theorem serializableToEntry_legacy_witness :
    serializableToEntry
      { id := "b1", date := "2024-01-01", time := none, mealType := none,
        menu := none, menuName := some "soup", photo := none,
        photoIsBase64 := false, createdAt := 500 } =
    Except.ok
      { id := "b1", date := "2024-01-01", time := none, mealType := "昼食",
        menu := some "soup", photo := none, createdAt := 500 } :=
  serializableToEntry_legacy _ rfl rfl rfl

/-- Claim C2 (amended): without a remote client the write operations (add,
update, delete) throw the configuration error, but the read operations do
not: `getAllEntries` returns an empty list and `getEntry` returns
`undefined`. -/
theorem remote_noClient (env : RemoteEnv) (e : FoodEntry) (id userId : String)
    (h : env.configured = false) :
    (addEntryToSupabase env e userId).1 = Except.error RemoteErr.notConfigured ∧
    (updateEntryInSupabase env e userId).1 = Except.error RemoteErr.notConfigured ∧
    (deleteEntryFromSupabase env id userId).1 = Except.error RemoteErr.notConfigured ∧
    getAllEntriesFromSupabase env userId = Except.ok [] ∧
    getEntryFromSupabase env id userId = Except.ok none := by
  simp [addEntryToSupabase, updateEntryInSupabase, deleteEntryFromSupabase,
        getAllEntriesFromSupabase, getEntryFromSupabase, h]

/-- Claim C2, witness for the amended statement, at a concrete
unconfigured environment. -/
theorem remote_noClient_witness :
    (addEntryToSupabase envNoClient sampleEntry "u").1 =
      Except.error RemoteErr.notConfigured ∧
    (updateEntryInSupabase envNoClient sampleEntry "u").1 =
      Except.error RemoteErr.notConfigured ∧
    (deleteEntryFromSupabase envNoClient "a1" "u").1 =
      Except.error RemoteErr.notConfigured ∧
    getAllEntriesFromSupabase envNoClient "u" = Except.ok [] ∧
    getEntryFromSupabase envNoClient "a1" "u" = Except.ok none :=
  remote_noClient envNoClient sampleEntry "a1" "u" rfl

/-- Claim C2, counterexample: with no client available the remote
`getAllEntries` read does not raise a configuration error — it returns the
default empty list. -/
theorem remote_noClient_read_returns_default :
    getAllEntriesFromSupabase envNoClient "u" = Except.ok [] ∧
    getEntryFromSupabase envNoClient "a1" "u" = Except.ok none :=
  ⟨rfl, rfl⟩

/-- Claim C6: on a remote add with a photo, when the blob upload succeeds
and the metadata insert then fails, the adapter deletes exactly the blob it
uploaded and re-throws the original insert error unmodified. -/
theorem addEntryToSupabase_rollback (env : RemoteEnv) (e : FoodEntry)
    (userId err : String) (hc : env.configured = true)
    (hp : e.photo.isSome = true) (hup : env.uploadOk = true)
    (hins : env.insertResult = some err) :
    (addEntryToSupabase env e userId).1 = Except.error (RemoteErr.backend err) ∧
    (addEntryToSupabase env e userId).2 =
      [REffect.upload (photoPath userId e.id), REffect.insertRow e.id,
       REffect.removeBlob (photoPath userId e.id)] := by
  obtain ⟨p, hp2⟩ := Option.isSome_iff_exists.mp hp
  simp [addEntryToSupabase, uploadPhoto, deletePhoto, hc, hins, hp2, hup]

/-- Claim C6, witness: concrete rollback run in `envInsertFail`. -/
theorem addEntryToSupabase_rollback_witness :
    (addEntryToSupabase envInsertFail sampleEntry "u").1 =
      Except.error (RemoteErr.backend "insert failed") ∧
    (addEntryToSupabase envInsertFail sampleEntry "u").2 =
      [REffect.upload (photoPath "u" sampleEntry.id),
       REffect.insertRow sampleEntry.id,
       REffect.removeBlob (photoPath "u" sampleEntry.id)] :=
  addEntryToSupabase_rollback envInsertFail sampleEntry "u" "insert failed"
    rfl rfl rfl rfl

/-- Claim C10: `clearAllEntries` drops every row but, unlike the other local
mutations, performs no directory-mirror sync: the mirror file keeps the
pre-clear content, and is only rewritten by the next syncing mutation (here
an update, which re-exports the then-current entry set). -/
theorem clearAllEntries_no_sync (st : DbState) (e : FoodEntry) :
    (clearAllEntries st).entries = [] ∧
    (clearAllEntries st).mirrorFile = st.mirrorFile ∧
    (st.dirHandle = true →
      (updateEntryLocal (clearAllEntries st) e).mirrorFile =
        some ((getAllEntriesInternal (idbPut [] e)).map entryToSerializable)) := by
  refine ⟨rfl, rfl, fun h => ?_⟩
  simp [updateEntryLocal, clearAllEntries, syncToFile, saveToFile, h]

/-- Claim C10, witness: concrete pre-clear mirror survives the clear and is
rewritten by a subsequent update. -/
theorem clearAllEntries_no_sync_witness :
    (clearAllEntries stSample).entries = [] ∧
    (clearAllEntries stSample).mirrorFile = some [entryToSerializable samplePlain] ∧
    (updateEntryLocal (clearAllEntries stSample) sampleEntry).mirrorFile =
      some ((getAllEntriesInternal (idbPut [] sampleEntry)).map entryToSerializable) := by
  have h := clearAllEntries_no_sync stSample sampleEntry
  exact ⟨h.1, h.2.1, h.2.2 rfl⟩

/-- Claim C9: local `addEntry` with an id already in the store fails with
the duplicate-key `ConstraintError` (the store value it would return is
never produced, so the contents stay exactly as they were); with a fresh
id it succeeds and a subsequent `getEntry` of that id returns the entry
just added. -/
theorem addEntryLocal_spec (st : DbState) (e : FoodEntry) :
    (st.entries.any (fun x => x.id == e.id) = true →
      addEntryLocal st e = Except.error DbErr.constraintError) ∧
    (st.entries.any (fun x => x.id == e.id) = false →
      ∃ st2, addEntryLocal st e = Except.ok st2 ∧
        st2.entries = st.entries ++ [e] ∧
        getEntryLocal st2 e.id = some e) := by
  constructor
  · intro h
    simp [addEntryLocal, h]
  · intro h
    refine ⟨syncToFile { st with entries := st.entries ++ [e] }, ?_, ?_, ?_⟩
    · simp [addEntryLocal, h]
    · exact syncToFile_entries _
    · unfold getEntryLocal idbGet
      rw [syncToFile_entries]
      have hnone : (st.entries.find? fun x => x.id == e.id) = none := by
        rw [List.find?_eq_none]
        intro x hx
        have := List.any_eq_false.mp h x hx
        simpa using this
      simp [List.find?_append, hnone]

/-- Claim C9, witness: duplicate add fails on a store holding the same id;
fresh add on an empty store succeeds and is readable back. -/
theorem addEntryLocal_spec_witness :
    addEntryLocal stSample samplePlain = Except.error DbErr.constraintError ∧
    ∃ st2, addEntryLocal { entries := [], dirHandle := false, mirrorFile := none }
        samplePlain = Except.ok st2 ∧
      st2.entries = [samplePlain] ∧
      getEntryLocal st2 samplePlain.id = some samplePlain := by
  constructor
  · exact (addEntryLocal_spec stSample samplePlain).1 (by decide)
  · have h := (addEntryLocal_spec
      { entries := [], dirHandle := false, mirrorFile := none } samplePlain).2 (by decide)
    simpa using h

/-- Claim C1, counterexample: with unequal limits the unclamped dimension
can exceed its maximum.  A 1000×1000 input with maxWidth 100 and maxHeight
800 takes the non-landscape branch, which clamps only the height: the
output is 800×800 and its width exceeds maxWidth = 100.  The same shape
violates the height bound in the landscape branch (1000×900 with limits
800×100 yields 800×720). -/
theorem compressDims_unequal_cex :
    compressDims 1000 1000 100 800 = (800, 800) ∧ ¬ ((800 : ℚ) ≤ 100) := by
  constructor
  · norm_num [compressDims]
  · norm_num

/-- Claim C1 (amended): when maxWidth = maxHeight (in particular the
defaults 800/800) the computed output dimensions are positive, bounded by
the maximum on both axes, never exceed the input dimensions, and preserve
the aspect ratio exactly (in exact arithmetic; the canvas then rounds). -/
theorem compressDims_spec (w h m : ℚ) (hw : 0 < w) (hh : 0 < h) (hm : 0 < m) :
    (compressDims w h m m).1 ≤ m ∧ (compressDims w h m m).2 ≤ m ∧
    (compressDims w h m m).1 ≤ w ∧ (compressDims w h m m).2 ≤ h ∧
    (compressDims w h m m).1 * h = (compressDims w h m m).2 * w ∧
    0 < (compressDims w h m m).1 ∧ 0 < (compressDims w h m m).2 := by
  unfold compressDims
  split
  case isTrue hlt =>
    split
    case isTrue hmw =>
      have hw0 : w ≠ 0 := ne_of_gt hw
      refine ⟨le_refl m, ?_, le_of_lt hmw, ?_, ?_, hm, ?_⟩
      · rw [mul_div_assoc'] at *
        rw [div_le_iff₀ hw]
        calc h * m ≤ w * m := by
              exact mul_le_mul_of_nonneg_right (le_of_lt hlt) (le_of_lt hm)
          _ = m * w := mul_comm w m
      · calc h * (m / w) ≤ h * 1 := by
              refine mul_le_mul_of_nonneg_left ?_ (le_of_lt hh)
              rw [div_le_one hw]
              exact le_of_lt hmw
          _ = h := mul_one h
      · field_simp
        ring
      · positivity
    case isFalse hmw =>
      push_neg at hmw
      exact ⟨hmw, le_trans (le_of_lt ‹h < w›) hmw, le_refl w, le_refl h,
        mul_comm w h, hw, hh⟩
  case isFalse hge =>
    push_neg at hge
    split
    case isTrue hmh =>
      have hh0 : h ≠ 0 := ne_of_gt hh
      refine ⟨?_, le_refl m, ?_, le_of_lt hmh, ?_, ?_, hm⟩
      · rw [mul_div_assoc']
        rw [div_le_iff₀ hh]
        calc w * m ≤ h * m := mul_le_mul_of_nonneg_right hge (le_of_lt hm)
          _ = m * h := mul_comm h m
      · calc w * (m / h) ≤ w * 1 := by
              refine mul_le_mul_of_nonneg_left ?_ (le_of_lt hw)
              rw [div_le_one hh]
              exact le_of_lt hmh
          _ = w := mul_one w
      · field_simp
        ring
      · positivity
    case isFalse hmh =>
      push_neg at hmh
      exact ⟨le_trans hge hmh, hmh, le_refl w, le_refl h, mul_comm w h, hw, hh⟩

/-- Claim C1, witness for the amended statement: a 1000×500 input under the
default 800×800 limits is scaled down to 800×400 — bounded, not upscaled,
aspect ratio intact. -/
theorem compressDims_spec_witness :
    (compressDims 1000 500 800 800).1 ≤ 800 ∧
    (compressDims 1000 500 800 800).2 ≤ 800 ∧
    (compressDims 1000 500 800 800).1 ≤ 1000 ∧
    (compressDims 1000 500 800 800).2 ≤ 500 ∧
    (compressDims 1000 500 800 800).1 * 500 = (compressDims 1000 500 800 800).2 * 1000 ∧
    0 < (compressDims 1000 500 800 800).1 ∧
    0 < (compressDims 1000 500 800 800).2 :=
  compressDims_spec 1000 500 800 (by norm_num) (by norm_num) (by norm_num)

/-- Lexicographic `≤` on character lists is total. -/
theorem lexLeChars_total : ∀ (x y : List Char),
    (lexLeChars x y || lexLeChars y x) = true
  | [], _ => by simp [lexLeChars]
  | _ :: _, [] => by simp [lexLeChars]
  | a :: as, b :: bs => by
    by_cases hab : a < b
    · simp [lexLeChars, hab]
    · by_cases hba : b < a
      · simp [lexLeChars, hab, hba]
      · have := lexLeChars_total as bs
        simp [lexLeChars, hab, hba, this]

/-- Lexicographic `≤` on character lists is transitive. -/
theorem lexLeChars_trans : ∀ (x y z : List Char),
    lexLeChars x y = true → lexLeChars y z = true → lexLeChars x z = true
  | [], _, _ => by intro _ _; simp [lexLeChars]
  | a :: as, [], _ => by intro h1 _; simp [lexLeChars] at h1
  | a :: as, b :: bs, [] => by intro _ h2; simp [lexLeChars] at h2
  | a :: as, b :: bs, c :: cs => by
    intro h1 h2
    by_cases hab : a < b
    · by_cases hbc : b < c
      · simp [lexLeChars, lt_trans hab hbc]
      · by_cases hcb : c < b
        · simp [lexLeChars, hbc, hcb] at h2
        · have heq : b = c := le_antisymm (le_of_not_lt hcb) (le_of_not_lt hbc)
          subst heq
          simp [lexLeChars, hab]
    · by_cases hba : b < a
      · simp [lexLeChars, hab, hba] at h1
      · have heq : a = b := le_antisymm (le_of_not_lt hba) (le_of_not_lt hab)
        subst heq
        simp only [lexLeChars, hab, if_neg, if_false] at h1
        by_cases hac : a < c
        · simp [lexLeChars, hac]
        · by_cases hca : c < a
          · simp [lexLeChars, hac, hca] at h2
          · simp only [lexLeChars, if_neg hac, if_neg hca] at h2 ⊢
            exact lexLeChars_trans as bs cs h1 h2

/-- Comparing two concatenations whose left parts have equal length:
lexicographic `≤` holds exactly when the left parts compare strictly, or
are equal and the right parts compare. -/
theorem lexLeChars_append (m₁ m₂ : List Char) :
    ∀ (l₁ l₂ : List Char), l₁.length = l₂.length →
      (lexLeChars (l₁ ++ m₁) (l₂ ++ m₂) = true ↔
        (lexLtChars l₁ l₂ = true ∨ (l₁ = l₂ ∧ lexLeChars m₁ m₂ = true)))
  | [], [] => by intro _; simp [lexLtChars]
  | [], _ :: _ => by intro h; simp at h
  | _ :: _, [] => by intro h; simp at h
  | a :: as, b :: bs => by
    intro h
    have hlen : as.length = bs.length := by simpa using h
    by_cases hab : a < b
    · simp [lexLeChars, lexLtChars, hab]
    · by_cases hba : b < a
      · have hne : ¬ (a = b) := by
          intro e
          subst e
          exact lt_irrefl a hba
        simp [lexLeChars, lexLtChars, hab, hba, hne]
      · have heq : a = b := le_antisymm (le_of_not_lt hba) (le_of_not_lt hab)
        subst heq
        simp only [List.cons_append, lexLeChars, lexLtChars, lt_irrefl,
          if_false, List.cons.injEq, true_and, reduceIte]
        exact lexLeChars_append m₁ m₂ as bs hlen

/-- Comparing lists with equal heads reduces to the tails. -/
theorem lexLeChars_cons_same (c : Char) (xs ys : List Char) :
    lexLeChars (c :: xs) (c :: ys) = lexLeChars xs ys := by
  simp [lexLeChars, lt_irrefl]

/-- For a well-formed time field (never the empty string) the template
fallback equals the plain default. -/
theorem timeKey_eq (e : FoodEntry) (h : e.time ≠ some "") :
    timeKey e = e.time.getD "00:00" := by
  unfold timeKey
  cases ht : e.time with
  | none => rfl
  | some t =>
    rw [ht] at h
    have hne : ¬ (t = "") := fun e2 => h (by rw [e2])
    simp [hne]

/-- Strings are equal exactly when their character data are. -/
theorem strData_inj {s t : String} : s.data = t.data ↔ s = t := by
  constructor
  · exact String.ext
  · intro h
    rw [h]

/-- Claim C3: the local listing returns a permutation of the stored
entries that is pairwise sorted by (date, time) descending — newest first —
an absent time ordering as "00:00".  The date invariant (well-formed
`YYYY-MM-DD`, hence ten characters) and time invariant (a present time is a
non-empty `HH:MM` string) are hypotheses. -/
theorem getAllEntriesInternal_sorted (entries : List FoodEntry)
    (hdate : ∀ e ∈ entries, e.date.data.length = 10)
    (htime : ∀ e ∈ entries, e.time ≠ some "") :
    List.Perm (getAllEntriesInternal entries) entries ∧
    (getAllEntriesInternal entries).Pairwise (fun a b =>
      lexLtChars b.date.data a.date.data = true ∨
      (b.date = a.date ∧
        lexLeChars (b.time.getD "00:00").data (a.time.getD "00:00").data = true)) := by
  have hperm : List.Perm (getAllEntriesInternal entries) entries :=
    List.mergeSort_perm entries _
  refine ⟨hperm, ?_⟩
  have hsorted : (entries.mergeSort fun a b : FoodEntry =>
      lexLeChars (sortKey b) (sortKey a)).Pairwise
      (fun a b : FoodEntry => lexLeChars (sortKey b) (sortKey a) = true) :=
    List.sorted_mergeSort
      (fun a b c hab hbc => lexLeChars_trans (sortKey c) (sortKey b) (sortKey a) hbc hab)
      (fun a b => lexLeChars_total (sortKey b) (sortKey a))
      entries
  refine List.Pairwise.imp_of_mem ?_ hsorted
  intro a b ha hb hr
  have ha2 : a ∈ entries := hperm.mem_iff.mp ha
  have hb2 : b ∈ entries := hperm.mem_iff.mp hb
  have hlen : b.date.data.length = a.date.data.length := by
    rw [hdate b hb2, hdate a ha2]
  unfold sortKey at hr
  have hr2 := (lexLeChars_append ('T' :: (timeKey b).data) ('T' :: (timeKey a).data)
      b.date.data a.date.data hlen).mp hr
  rcases hr2 with hlt | ⟨hdeq, hle⟩
  · exact Or.inl hlt
  · refine Or.inr ⟨strData_inj.mp hdeq, ?_⟩
    rw [lexLeChars_cons_same] at hle
    rw [← timeKey_eq b (htime b hb2), ← timeKey_eq a (htime a ha2)]
    exact hle

/-- Claim C3, witness: two concrete entries (one timeless) come back
newest-date-first. -/
theorem getAllEntriesInternal_sorted_witness :
    List.Perm (getAllEntriesInternal [samplePlain, sampleEntry]) [samplePlain, sampleEntry] ∧
    (getAllEntriesInternal [samplePlain, sampleEntry]).Pairwise (fun a b =>
      lexLtChars b.date.data a.date.data = true ∨
      (b.date = a.date ∧
        lexLeChars (b.time.getD "00:00").data (a.time.getD "00:00").data = true)) :=
  getAllEntriesInternal_sorted [samplePlain, sampleEntry] (by decide) (by decide)

/-- Decoding inverts encoding on every sextet value. -/
theorem dChar_cChar_fin : ∀ n : Fin 64, dChar (cChar n.val) = some n.val := by decide

/-- Decoding inverts encoding on sextets, Nat form. -/
theorem dChar_cChar (n : Nat) (h : n < 64) : dChar (cChar n) = some n :=
  dChar_cChar_fin ⟨n, h⟩

/-- No alphabet character is the padding character. -/
theorem cChar_ne_pad_fin : ∀ n : Fin 64, cChar n.val ≠ '=' := by decide

/-- No alphabet character is the padding character, Nat form. -/
theorem cChar_ne_pad (n : Nat) (h : n < 64) : cChar n ≠ '=' :=
  cChar_ne_pad_fin ⟨n, h⟩

/-- Base64 decoding inverts encoding on byte lists. -/
theorem b64decode_encode : ∀ (l : List Nat), (∀ b ∈ l, b < 256) →
    b64decode (b64encode l) = some l
  | [], _ => rfl
  | [b1], h => by
    have h1 : b1 < 256 := h b1 (by simp)
    have e1 := dChar_cChar (b1 / 4) (by omega)
    have e2 := dChar_cChar (b1 % 4 * 16) (by omega)
    simp [b64encode, b64decode, e1, e2] <;> omega
  | [b1, b2], h => by
    have h1 : b1 < 256 := h b1 (by simp)
    have h2 : b2 < 256 := h b2 (by simp)
    have e1 := dChar_cChar (b1 / 4) (by omega)
    have e2 := dChar_cChar (b1 % 4 * 16 + b2 / 16) (by omega)
    have e3 := dChar_cChar (b2 % 16 * 4) (by omega)
    have ne3 := cChar_ne_pad (b2 % 16 * 4) (by omega)
    simp [b64encode, b64decode, e1, e2, e3, ne3] <;> omega
  | b1 :: b2 :: b3 :: rest, h => by
    have h1 : b1 < 256 := h b1 (by simp)
    have h2 : b2 < 256 := h b2 (by simp)
    have h3 : b3 < 256 := h b3 (by simp)
    have ih := b64decode_encode rest (fun b hb => h b (by simp [hb]))
    have e1 := dChar_cChar (b1 / 4) (by omega)
    have e2 := dChar_cChar (b1 % 4 * 16 + b2 / 16) (by omega)
    have e3 := dChar_cChar (b2 % 16 * 4 + b3 / 64) (by omega)
    have e4 := dChar_cChar (b3 % 64) (by omega)
    have ne3 := cChar_ne_pad (b2 % 16 * 4 + b3 / 64) (by omega)
    have ne4 := cChar_ne_pad (b3 % 64) (by omega)
    simp [b64encode, b64decode, e1, e2, e3, e4, ne3, ne4, ih] <;> omega

/-- Data-URL decoding inverts the `readAsDataURL` encoding on byte lists. -/
theorem dataUrlDecode_encode (bytes : List Nat) (h : ∀ b ∈ bytes, b < 256) :
    dataUrlDecode (blobToDataUrl bytes) = some bytes := by
  unfold dataUrlDecode blobToDataUrl
  have hdata : (dataUrlHead ++ String.mk (b64encode bytes)).data
      = dataUrlHead.data ++ b64encode bytes := by
    rw [String.data_append]
  rw [hdata, if_pos]
  · rw [List.drop_left]
    exact b64decode_encode bytes h
  · exact List.isPrefixOf_iff_prefix.mpr (List.prefix_append _ _)

/-- Claim C5 (amended): deserializing the serialization of a current-schema
entry reproduces it exactly — scalar fields on the nose and photo bytes
byte-for-byte — provided a present `menu` is non-empty (an empty-string
menu is collapsed to an absent one by the `menu || menuName` fallback). -/
theorem serialize_roundtrip (e : FoodEntry)
    (hmeal : e.mealType ∈ mealTypes)
    (hmenu : e.menu ≠ some "")
    (hphoto : photoWF e.photo) :
    serializableToEntry (entryToSerializable e) = Except.ok e := by
  obtain ⟨i, dt, tm, mt, mn, ph, ca⟩ := e
  have hm : ¬ (mt = "") := by
    simp only [mealTypes, List.mem_cons, List.not_mem_nil, or_false] at hmeal
    rcases hmeal with h | h | h | h | h <;> subst h <;> decide
  have hmenu2 : jsOrStr mn none = mn := by
    cases mn with
    | none => rfl
    | some m =>
      have hne : ¬ (m = "") := by
        intro e2
        subst e2
        exact hmenu rfl
      simp [jsOrStr, strTruthy, hne]
  cases ph with
  | none =>
    simp [entryToSerializable, serializableToEntry, hm, hmenu2]
    rfl
  | some pv =>
    cases pv with
    | blob bytes =>
      have hb : ∀ b ∈ bytes, b < 256 := hphoto
      simp [entryToSerializable, serializableToEntry, hm, hmenu2,
        dataUrlDecode_encode bytes hb]
      rfl
    | str s => exact hphoto.elim

/-- Claim C5, counterexample: an entry whose `menu` is the empty string does
not survive the round trip — its menu comes back absent. -/
theorem serialize_roundtrip_menuEmpty_cex :
    serializableToEntry (entryToSerializable menuEmptyEntry) =
      Except.ok menuEmptyResult ∧
    menuEmptyResult ≠ menuEmptyEntry := by
  constructor
  · rfl
  · decide

/-- Claim C5, witness: a concrete entry with a three-byte photo blob
round-trips exactly, photo bytes included. -/
theorem serialize_roundtrip_witness :
    serializableToEntry (entryToSerializable sampleEntry) = Except.ok sampleEntry :=
  serialize_roundtrip sampleEntry (by decide) (by decide)
    (by show ∀ b ∈ [(255 : Nat), 0, 1], b < 256; decide)

end Foodiary
